import Mathlib

/-!
Shallow embedding of the BigFrames IR node model and compile helpers
(`bigframes/core/nodes.py`, `bigframes/core/compile/single_column.py`,
`bigframes/core/compile/default_ordering.py`).

Auxiliary modules that the source imports but that are not part of the
verified sources (`bigframes.core.identifiers`, `bigframes.core.guid`,
`bigframes.core.ordering`, `bigframes.core.expression`,
`bigframes.operations.aggregations`, `bigframes.core.window_spec`,
`bigframes.dtypes`, ibis expression objects) are modelled from the spec's
description of their interfaces; each such definition says so in its doc
comment.
-/

namespace BigFrames

/-- Modelled from the spec: `bigframes.core.identifiers.ColumnId` (module not
under src/) — an opaque symbolic column name with a `.name` accessor,
identity-comparable. -/
structure ColumnId where
  name : String
deriving DecidableEq, Repr

/-- Modelled from the spec: `bigframes.dtypes.Dtype` (module not under src/).
A closed enumeration of the semantic column types the claims need, including
the type-class predicates used by the compile helpers. -/
inductive Dtype where
  | int64
  | float64
  | boolDt
  | bytesDt
  | timestampDt
  | dateDt
  | geographyDt
  | stringDt
  | jsonDt
  | arrayDt (elem : Dtype)
deriving DecidableEq, Repr

/-- ibis `DataType.is_numeric()`. -/
def Dtype.is_numeric : Dtype → Bool
  | .int64 => true
  | .float64 => true
  | _ => false

/-- ibis `DataType.is_boolean()`. -/
def Dtype.is_boolean : Dtype → Bool
  | .boolDt => true
  | _ => false

/-- ibis `DataType.is_binary()`. -/
def Dtype.is_binary : Dtype → Bool
  | .bytesDt => true
  | _ => false

/-- ibis `DataType.is_temporal()`. -/
def Dtype.is_temporal : Dtype → Bool
  | .timestampDt => true
  | .dateDt => true
  | _ => false

/-- ibis `DataType.is_geospatial()`. -/
def Dtype.is_geospatial : Dtype → Bool
  | .geographyDt => true
  | _ => false

/-- ibis `DataType.is_string()`. -/
def Dtype.is_string : Dtype → Bool
  | .stringDt => true
  | _ => false

/-- Arrow `value_type` of a list dtype, used by `ExplodeNode.fields`
(`nodes.py` line 968).  On a non-array dtype the source raises; modelled as
the identity there (never reached on well-formed explode nodes). -/
def Dtype.value_type : Dtype → Dtype
  | .arrayDt e => e
  | d => d

/-- Modelled from the spec: `bigframes.core.expression.DerefOp` (module not
under src/) — a column reference exposing `.id`. -/
structure DerefOp where
  id : ColumnId
deriving DecidableEq, Repr

/-- Modelled from the spec: `bigframes.core.expression.Expression` (module not
under src/) — the spec treats it as an opaque type supporting
`output_type(schema) -> Dtype` and `column_references`.  `deref` is the
identity reference; `opExpr` is any other expression with the given
references and output dtype. -/
inductive Expression where
  | deref (id : ColumnId)
  | opExpr (refs : List ColumnId) (out : Dtype)
deriving DecidableEq, Repr

/-- `Expression.column_references`. -/
def Expression.column_references : Expression → List ColumnId
  | .deref id => [id]
  | .opExpr refs _ => refs

/-- Modelled from the spec: `bigframes.core.expression.Aggregation` (module
not under src/), exposing `column_references` and `output_type`. -/
structure Aggregation where
  column_references : List ColumnId
  out : Dtype
deriving DecidableEq, Repr

/-- Modelled from the spec: `bigframes.operations.aggregations.UnaryWindowOp`
(module not under src/).  `fixedOut = none` means the op preserves its input
dtype; `some d` means it always outputs `d`. -/
structure UnaryWindowOp where
  fixedOut : Option Dtype
deriving DecidableEq, Repr

/-- `UnaryWindowOp.output_type(input_type)`. -/
def UnaryWindowOp.output_type (op : UnaryWindowOp) (input : Dtype) : Dtype :=
  op.fixedOut.getD input

/-- Modelled from the spec: `bigframes.core.window_spec.WindowSpec` (module
not under src/) — opaque data carried by `WindowOpNode`, not consulted by
pruning. -/
structure WindowSpec where
  grouping_keys : List ColumnId
deriving DecidableEq, Repr

/-- Modelled from the spec: `bigframes.core.ordering.OrderingExpression`
(module not under src/), exposing `referenced_columns`. -/
structure OrderingExpression where
  ref : ColumnId
  ascending : Bool
deriving DecidableEq, Repr

/-- `OrderingExpression.referenced_columns`. -/
def OrderingExpression.referenced_columns (o : OrderingExpression) : List ColumnId :=
  [o.ref]

/-- Modelled from the spec: `bigframes.core.ordering.RowOrdering` (module not
under src/) as consumed by `ReadTableNode`: only `is_total_ordering` and
`is_sequential` are read. -/
structure RowOrdering where
  is_total_ordering : Bool
  is_sequential : Bool
deriving DecidableEq, Repr

/-- Session objects are opaque identities (`bigframes.session.Session`). -/
abbrev Session := Nat

/-- `bq.SchemaField`: only the column name and type are consulted. -/
structure SchemaField where
  name : String
  field_type : Dtype
deriving DecidableEq, Repr

/-- Modelled from the spec: one item of `bigframes.core.schema.ArraySchema`
(module not under src/). -/
structure SchemaItem where
  name : String
  dtype : Dtype
deriving DecidableEq, Repr

/-- Modelled from the spec: `bigframes.core.schema.ArraySchema` (module not
under src/), an ordered sequence of named, typed columns. -/
abbrev ArraySchema := List SchemaItem

/-- `ScanItem` from `nodes.py`: `(output ColumnId, Dtype, source_identifier)`. -/
structure ScanItem where
  id : ColumnId
  dtype : Dtype
  source_id : String
deriving DecidableEq, Repr

/-- `ScanList` from `nodes.py`. -/
structure ScanList where
  items : List ScanItem
deriving DecidableEq, Repr

/-- `GbqTable` from `nodes.py`. -/
structure GbqTable where
  project_id : String
  dataset_id : String
  table_id : String
  physical_schema : List SchemaField
  n_rows : Nat
  is_physical_table : Bool
  cluster_cols : Option (List String)
deriving DecidableEq, Repr

/-- `BigqueryDataSource` from `nodes.py`.  `at_time` is an opaque timestamp. -/
structure BigqueryDataSource where
  table : GbqTable
  at_time : Option Int := none
  sql_predicate : Option String := none
  ordering : Option RowOrdering := none
deriving DecidableEq, Repr

/-- Join kinds accepted by `JoinNode.type` in `nodes.py`. -/
inductive JoinType where
  | inner
  | outer
  | left
  | right
  | cross
deriving DecidableEq, Repr

/-- `Field` from `nodes.py`: a column identity paired with its dtype. -/
structure Field where
  id : ColumnId
  dtype : Dtype
deriving DecidableEq, Repr

mutual

/-- The `BigFrameNode` tree from `nodes.py`, one constructor per concrete
dataclass.  Constructor argument order follows the dataclass field order, so
structural equality of this type is the source's `_as_tuple`-based `__eq__`
(`nodes.py` lines 98-121), which compares the full dataclass field tuple
recursively — including `CachedTableNode.original_node`. -/
inductive Node where
  | readLocal (feather_bytes : List UInt8) (data_schema : ArraySchema) (n_rows : Nat)
      (scan_list : ScanList) (session : Option Session)
  | readTable (source : BigqueryDataSource) (scan_list : ScanList) (table_session : Session)
  | cachedTable (source : BigqueryDataSource) (scan_list : ScanList) (table_session : Session)
      (original_node : Node)
  | promoteOffsets (child : Node) (col_id : ColumnId)
  | filter (child : Node) (predicate : Expression)
  | orderBy (child : Node) (by_keys : List OrderingExpression)
  | reversedNode (child : Node) (reversed_flag : Bool)
  | selection (child : Node) (input_output_pairs : List (DerefOp × ColumnId))
  | projection (child : Node) (assignments : List (Expression × ColumnId))
  | rowCountNode (child : Node)
  | aggregate (child : Node) (aggregations : List (Aggregation × ColumnId))
      (by_column_ids : List DerefOp) (dropna : Bool)
  | windowOp (child : Node) (column_name : DerefOp) (op : UnaryWindowOp)
      (window_spec : WindowSpec) (output_name : ColumnId)
      (never_skip_nulls : Bool) ( skip_reproject_unsafe : Bool)
  | reprojectOp (child : Node)
  | randomSample (child : Node) (fraction : Rat)
  | explode (child : Node) (column_ids : List DerefOp)
  | join (left_child : Node) (right_child : Node)
      (conditions : List (DerefOp × DerefOp)) (type : JoinType)
  | concat (children : NodeList)
  | fromRange (start : Node) (stop : Node) (step : Int)
deriving DecidableEq, Repr

/-- The children tuple of `ConcatNode` (`Tuple[BigFrameNode, ...]`), as a
mutually-defined list so that decidable equality of the tree is derivable. -/
inductive NodeList where
  | nil
  | cons (head : Node) (tail : NodeList)
deriving DecidableEq, Repr

end

/-- View a `NodeList` as an ordinary list. -/
def NodeList.toList : NodeList → List Node
  | .nil => []
  | .cons h t => h :: NodeList.toList t

/-- Build a `NodeList` from an ordinary list. -/
def NodeList.ofList : List Node → NodeList
  | [] => .nil
  | h :: t => .cons h (NodeList.ofList t)

/-- The `_dtype_lookup` dict of `nodes.py` (line 239): column id to dtype,
built from a node's fields; on duplicate ids the later field wins, as in a
Python dict comprehension.  A missing id raises `KeyError` in the source;
modelled with an arbitrary default dtype. -/
def lookupDtype (fs : List Field) (id : ColumnId) : Dtype :=
  (((fs.reverse).find? (fun f => f.id = id)).map (fun f => f.dtype)).getD Dtype.int64

/-- `Expression.output_type(schema)` combined with `dtype_for_etype`,
modelled from the spec (expression module not under src/): a deref reports
its referent's dtype, any other expression its fixed output dtype. -/
def Expression.output_type (e : Expression) (fs : List Field) : Dtype :=
  match e with
  | .deref id => lookupDtype fs id
  | .opExpr _ out => out

/-- The per-variant `fields` property of `nodes.py`: the node's output
schema, derived from its declared state and its children's fields. -/
def Node.fields : Node → List Field
  | .readLocal _ _ _ sl _ => sl.items.map (fun it => ⟨it.id, it.dtype⟩)
  | .readTable _ sl _ => sl.items.map (fun it => ⟨it.id, it.dtype⟩)
  | .cachedTable _ sl _ _ => sl.items.map (fun it => ⟨it.id, it.dtype⟩)
  | .promoteOffsets c col => Node.fields c ++ [⟨col, Dtype.int64⟩]
  | .filter c _ => Node.fields c
  | .orderBy c _ => Node.fields c
  | .reversedNode c _ => Node.fields c
  | .selection c pairs =>
      pairs.map (fun p => ⟨p.2, lookupDtype (Node.fields c) p.1.id⟩)
  | .projection c assigns =>
      Node.fields c ++ assigns.map (fun a => ⟨a.2, a.1.output_type (Node.fields c)⟩)
  | .rowCountNode _ => [⟨⟨"count"⟩, Dtype.int64⟩]
  | .aggregate c aggs by_ids _ =>
      by_ids.map (fun r => ⟨r.id, lookupDtype (Node.fields c) r.id⟩)
        ++ aggs.map (fun a => ⟨a.2, a.1.out⟩)
  | .windowOp c cn op _ out _ _ =>
      Node.fields c ++ [⟨out, op.output_type (lookupDtype (Node.fields c) cn.id)⟩]
  | .reprojectOp c => Node.fields c
  | .randomSample c _ => Node.fields c
  | .explode c ids =>
      (Node.fields c).map (fun f =>
        if (ids.map (fun r => r.id)).contains f.id then ⟨f.id, f.dtype.value_type⟩ else f)
  | .join l r _ _ => Node.fields l ++ Node.fields r
  | .concat children =>
      match children with
      | .nil => []
      | .cons c _ =>
          (Node.fields c).enum.map (fun p => ⟨⟨"column_" ++ toString p.1⟩, p.2.dtype⟩)
  | .fromRange start _ _ =>
      [⟨⟨"labels"⟩, (((Node.fields start).head?).map (fun f => f.dtype)).getD Dtype.int64⟩]

/-- `schema.dtypes`: the positional dtype sequence of a node's output schema
(`ConcatNode.__post_init__` compares these). -/
def Node.schemaDtypes (n : Node) : List Dtype :=
  (Node.fields n).map (fun f => f.dtype)

/-- `child_nodes`: the structural children of each node, as defined per
variant in `nodes.py`.  `CachedTableNode` inherits the leaf default — its
`original_node` back-reference is not a child. -/
def Node.child_nodes : Node → List Node
  | .readLocal _ _ _ _ _ => []
  | .readTable _ _ _ => []
  | .cachedTable _ _ _ _ => []
  | .promoteOffsets c _ => [c]
  | .filter c _ => [c]
  | .orderBy c _ => [c]
  | .reversedNode c _ => [c]
  | .selection c _ => [c]
  | .projection c _ => [c]
  | .rowCountNode c => [c]
  | .aggregate c _ _ _ => [c]
  | .windowOp c _ _ _ _ _ _ => [c]
  | .reprojectOp c => [c]
  | .randomSample c _ => [c]
  | .explode c _ => [c]
  | .join l r _ _ => [l, r]
  | .concat children => children.toList
  | .fromRange s e _ => [s, e]

/-- The column ids referenced by a join's conditions, from both sides:
`map(lambda x: x.id, itertools.chain.from_iterable(self.conditions))`
(`JoinNode.prune`, `nodes.py` lines 330-335). -/
def joinConditionIds (conds : List (DerefOp × DerefOp)) : Finset ColumnId :=
  (conds.flatMap (fun p => [p.1.id, p.2.id])).toFinset

/-- The per-variant `prune(used_cols)` rewrite of `nodes.py`, translated
case by case:
* leaves filter their scan list to the used ids;
* `PromoteOffsetsNode` collapses to the pruned child when its offset column
  is unused;
* `FilterNode`/`OrderByNode` add their referenced columns before recursing;
* `SelectionNode` keeps only pairs whose output is used and recurses with
  the survivors' inputs;
* `ProjectionNode` drops dead assignments, collapsing entirely when none
  survive;
* `AggregateNode` keeps all group-by keys and recurses with keys plus the
  surviving aggregations' inputs (discarding `used_cols` itself);
* `WindowOpNode` returns `self.child` — as written, NOT the pruned child —
  when its output is unused (`nodes.py` line 916), else recurses with
  `used - output + input`;
* `JoinNode` recurses both sides with `used` plus all join-key ids;
* `ConcatNode`/`FromRangeNode` are unprunable and return themselves;
* the remaining unary nodes inherit the default: recurse unchanged. -/
def Node.prune : Node → Finset ColumnId → Node
  | .readLocal fb ds n sl ses, used =>
      .readLocal fb ds n ⟨sl.items.filter (fun it => it.id ∈ used)⟩ ses
  | .readTable s sl ses, used =>
      .readTable s ⟨sl.items.filter (fun it => it.id ∈ used)⟩ ses
  | .cachedTable s sl ses orig, used =>
      .cachedTable s ⟨sl.items.filter (fun it => it.id ∈ used)⟩ ses orig
  | .promoteOffsets c col, used =>
      if col ∉ used then Node.prune c used
      else .promoteOffsets (Node.prune c (used \ {col})) col
  | .filter c p, used =>
      .filter (Node.prune c (used ∪ p.column_references.toFinset)) p
  | .orderBy c keys, used =>
      .orderBy (Node.prune c (used ∪ (keys.flatMap (fun k => k.referenced_columns)).toFinset)) keys
  | .reversedNode c f, used => .reversedNode (Node.prune c used) f
  | .selection c pairs, used =>
      let pruned_selections := pairs.filter (fun p => p.2 ∈ used)
      .selection (Node.prune c (pruned_selections.map (fun p => p.1.id)).toFinset)
        pruned_selections
  | .projection c assigns, used =>
      let pruned_assignments := assigns.filter (fun a => a.2 ∈ used)
      if pruned_assignments.length = 0 then Node.prune c used
      else
        .projection
          (Node.prune c
            (used ∪ (pruned_assignments.flatMap (fun a => a.1.column_references)).toFinset))
          pruned_assignments
  | .rowCountNode c, used => .rowCountNode (Node.prune c used)
  | .aggregate c aggs by_ids dropna, used =>
      let pruned_aggs := aggs.filter (fun a => a.2 ∈ used)
      let consumed_ids :=
        (by_ids.map (fun r => r.id) ++ pruned_aggs.flatMap (fun a => a.1.column_references)).toFinset
      .aggregate (Node.prune c consumed_ids) pruned_aggs by_ids dropna
  | .windowOp c cn op ws out nsn sru, used =>
      if out ∉ used then c
      else .windowOp (Node.prune c ((used \ {out}) ∪ {cn.id})) cn op ws out nsn sru
  | .reprojectOp c, used => .reprojectOp (Node.prune c used)
  | .randomSample c f, used => .randomSample (Node.prune c used) f
  | .explode c ids, used =>
      .explode (Node.prune c (used ∪ (ids.map (fun r => r.id)).toFinset)) ids
  | .join l r conds ty, used =>
      let new_used := used ∪ joinConditionIds conds
      .join (Node.prune l new_used) (Node.prune r new_used) conds ty
  | .concat children, _ => .concat children
  | .fromRange s e st, _ => .fromRange s e st

/-- `LeafNode.row_count` and its overrides: `ReadLocalNode` reports its
local row count; `ReadTableNode` (and `CachedTableNode`, which inherits it)
reports the table's declared row count exactly when there is no SQL
predicate and the table is physical (`nodes.py` lines 609-613); every other
node has no row-count property (unknown). -/
def Node.row_count : Node → Option Nat
  | .readLocal _ _ n _ _ => some n
  | .readTable s _ _ =>
      if s.sql_predicate = none ∧ s.table.is_physical_table then some s.table.n_rows
      else none
  | .cachedTable s _ _ _ =>
      if s.sql_predicate = none ∧ s.table.is_physical_table then some s.table.n_rows
      else none
  | _ => none

/-- `ConcatNode.__post_init__` (`nodes.py` lines 343-348) as a checked
constructor: zero children or non-identical positional dtype sequences are
rejected; `set(child_schemas)` is modelled by `List.dedup`. -/
def concatNodeMake (children : NodeList) : Except String Node :=
  if children.toList.length = 0 then
    .error "Concat requires at least one input table. Zero provided."
  else if (children.toList.map Node.schemaDtypes).dedup.length = 1 then
    .ok (Node.concat children)
  else .error "All inputs must have identical dtypes."

/-- A simple deterministic string hash, standing in for Python's opaque
built-in `hash` on strings. -/
def strHash (s : String) : Nat :=
  s.data.foldl (fun a c => a * 31 + c.toNat) 7

/-- Deterministic combination of the component hashes of a tuple, standing
in for Python's opaque tuple hash. -/
def tupHash (parts : List Nat) : Nat :=
  parts.foldl (fun a x => a * 1000003 + x + 1) 5

/-- Hash of an optional value. -/
def optionHash (f : α → Nat) : Option α → Nat
  | none => 0
  | some a => 1 + f a

/-- Hash of a tuple of values. -/
def listHash (f : α → Nat) (l : List α) : Nat :=
  l.foldl (fun a x => a * 131 + f x + 1) 11

/-- Hash of a boolean. -/
def boolHash (b : Bool) : Nat :=
  cond b 1 0

/-- Hash of a `ColumnId`. -/
def columnIdHash (c : ColumnId) : Nat :=
  strHash c.name

/-- Hash of a `Dtype`. -/
def dtypeHash : Dtype → Nat
  | .int64 => 0
  | .float64 => 1
  | .boolDt => 2
  | .bytesDt => 3
  | .timestampDt => 4
  | .dateDt => 5
  | .geographyDt => 6
  | .stringDt => 7
  | .jsonDt => 8
  | .arrayDt e => 9 + 10 * dtypeHash e

/-- Hash of a `DerefOp`. -/
def derefHash (d : DerefOp) : Nat :=
  columnIdHash d.id

/-- Hash of an `Expression`. -/
def expressionHash : Expression → Nat
  | .deref id => tupHash [0, columnIdHash id]
  | .opExpr refs out => tupHash [1, listHash columnIdHash refs, dtypeHash out]

/-- Hash of an `Aggregation`. -/
def aggregationHash (a : Aggregation) : Nat :=
  tupHash [listHash columnIdHash a.column_references, dtypeHash a.out]

/-- Hash of a `UnaryWindowOp`. -/
def unaryWindowOpHash (op : UnaryWindowOp) : Nat :=
  optionHash dtypeHash op.fixedOut

/-- Hash of a `WindowSpec`. -/
def windowSpecHash (w : WindowSpec) : Nat :=
  listHash columnIdHash w.grouping_keys

/-- Hash of an `OrderingExpression`. -/
def orderingExprHash (o : OrderingExpression) : Nat :=
  tupHash [columnIdHash o.ref, boolHash o.ascending]

/-- Hash of a `RowOrdering`. -/
def rowOrderingHash (r : RowOrdering) : Nat :=
  tupHash [boolHash r.is_total_ordering, boolHash r.is_sequential]

/-- Hash of a `SchemaField`. -/
def schemaFieldHash (f : SchemaField) : Nat :=
  tupHash [strHash f.name, dtypeHash f.field_type]

/-- Hash of a `SchemaItem`. -/
def schemaItemHash (i : SchemaItem) : Nat :=
  tupHash [strHash i.name, dtypeHash i.dtype]

/-- Hash of a `ScanItem`. -/
def scanItemHash (it : ScanItem) : Nat :=
  tupHash [columnIdHash it.id, dtypeHash it.dtype, strHash it.source_id]

/-- Hash of a `ScanList`. -/
def scanListHash (sl : ScanList) : Nat :=
  listHash scanItemHash sl.items

/-- Hash of a `GbqTable`. -/
def gbqTableHash (t : GbqTable) : Nat :=
  tupHash [strHash t.project_id, strHash t.dataset_id, strHash t.table_id,
    listHash schemaFieldHash t.physical_schema, t.n_rows, boolHash t.is_physical_table,
    optionHash (listHash strHash) t.cluster_cols]

/-- Hash of a `BigqueryDataSource`. -/
def dataSourceHash (s : BigqueryDataSource) : Nat :=
  tupHash [gbqTableHash s.table, optionHash Int.natAbs s.at_time,
    optionHash strHash s.sql_predicate, optionHash rowOrderingHash s.ordering]

/-- Hash of a `JoinType`. -/
def joinTypeHash : JoinType → Nat
  | .inner => 0
  | .outer => 1
  | .left => 2
  | .right => 3
  | .cross => 4

/-- Hash of a `Rat`. -/
def ratHash (q : Rat) : Nat :=
  tupHash [q.num.natAbs, q.den]

mutual

/-- `BigFrameNode._cached_hash = hash(self._as_tuple())` (`nodes.py` lines
119-121): a deterministic function of the full dataclass field tuple,
recursively including every declared field — for `CachedTableNode` this
includes `original_node`, since `_as_tuple` iterates over all dataclass
fields.  Python's builtin hash is opaque; it is modelled by a concrete
deterministic hash of the same field tuple. -/
def Node.cached_hash : Node → Nat
  | .readLocal fb ds n sl ses =>
      tupHash [0, listHash (fun b => b.toNat) fb, listHash schemaItemHash ds, n,
        scanListHash sl, optionHash id ses]
  | .readTable s sl ses => tupHash [1, dataSourceHash s, scanListHash sl, ses]
  | .cachedTable s sl ses orig =>
      tupHash [2, dataSourceHash s, scanListHash sl, ses, Node.cached_hash orig]
  | .promoteOffsets c col => tupHash [3, Node.cached_hash c, columnIdHash col]
  | .filter c p => tupHash [4, Node.cached_hash c, expressionHash p]
  | .orderBy c keys => tupHash [5, Node.cached_hash c, listHash orderingExprHash keys]
  | .reversedNode c f => tupHash [6, Node.cached_hash c, boolHash f]
  | .selection c pairs =>
      tupHash [7, Node.cached_hash c,
        listHash (fun p => tupHash [derefHash p.1, columnIdHash p.2]) pairs]
  | .projection c assigns =>
      tupHash [8, Node.cached_hash c,
        listHash (fun a => tupHash [expressionHash a.1, columnIdHash a.2]) assigns]
  | .rowCountNode c => tupHash [9, Node.cached_hash c]
  | .aggregate c aggs by_ids dropna =>
      tupHash [10, Node.cached_hash c,
        listHash (fun a => tupHash [aggregationHash a.1, columnIdHash a.2]) aggs,
        listHash derefHash by_ids, boolHash dropna]
  | .windowOp c cn op ws out nsn sru =>
      tupHash [11, Node.cached_hash c, derefHash cn, unaryWindowOpHash op,
        windowSpecHash ws, columnIdHash out, boolHash nsn, boolHash sru]
  | .reprojectOp c => tupHash [12, Node.cached_hash c]
  | .randomSample c f => tupHash [13, Node.cached_hash c, ratHash f]
  | .explode c ids => tupHash [14, Node.cached_hash c, listHash derefHash ids]
  | .join l r conds ty =>
      tupHash [15, Node.cached_hash l, Node.cached_hash r,
        listHash (fun p => tupHash [derefHash p.1, derefHash p.2]) conds, joinTypeHash ty]
  | .concat children => tupHash [16, NodeList.hashChildren children]
  | .fromRange s e st =>
      tupHash [17, Node.cached_hash s, Node.cached_hash e, st.natAbs]

/-- Hash of a `ConcatNode`'s children tuple. -/
def NodeList.hashChildren : NodeList → Nat
  | .nil => 3
  | .cons h t => Node.cached_hash h * 1000003 + NodeList.hashChildren t + 19

end

/-! ## Join compiler (`bigframes/core/compile/single_column.py`) -/

/-- A typed SQL scalar as the join compiler sees it: the column's literal
content in one row, or SQL `NULL`. -/
inductive SqlLit where
  | intL (i : Int)
  | boolL (b : Bool)
  | strL (s : String)
  | geoL (wkt : String)
  | jsonL (j : String)
deriving DecidableEq, Repr

/-- ibis `cast(str)` semantics on a non-null literal, modelled: every literal
has a canonical text form; a string casts to itself. -/
def SqlLit.castText : SqlLit → String
  | .intL i => toString i
  | .boolL b => if b then "True" else "False"
  | .strL s => s
  | .geoL w => w
  | .jsonL j => j

/-- ibis `GeoSpatialColumn.as_text()` (well-known-text form), modelled. -/
def SqlLit.geoAsText : SqlLit → String
  | .geoL w => w
  | l => l.castText

/-- BigQuery `TO_JSON_STRING` on a non-null literal, modelled: strings are
quoted, other scalars use their JSON form. -/
def SqlLit.toJsonText : SqlLit → String
  | .jsonL j => j
  | .strL s => "\"" ++ s ++ "\""
  | .boolL b => if b then "true" else "false"
  | .intL i => toString i
  | .geoL w => "\"" ++ w ++ "\""

/-- An ibis `Value` restricted to one row: its declared type plus its
(nullable) literal content. -/
structure IbisValue where
  ty : Dtype
  val : Option SqlLit
deriving DecidableEq, Repr

/-- `value.cast(ibis_dtypes.str)`: the result is of string type; a null
stays null, a non-null literal becomes its text form. -/
def IbisValue.castToText (v : IbisValue) : IbisValue :=
  ⟨Dtype.stringDt, v.val.map (fun l => SqlLit.strL l.castText)⟩

/-- `value.fillna(default)`: replaces null content by the default. -/
def IbisValue.fillna (v : IbisValue) (d : SqlLit) : IbisValue :=
  ⟨v.ty, some (v.val.getD d)⟩

/-- `value_to_join_key` (`single_column.py` lines 178-182): cast non-string
values to text, then replace null by the `$NULL_SENTINEL$` token. -/
def value_to_join_key (value : IbisValue) : IbisValue :=
  let value := if ¬ value.ty.is_string then value.castToText else value
  value.fillna (SqlLit.strL "$NULL_SENTINEL$")

/-- Modelled from the spec: `bigframes.core.identifiers.standard_identifiers`
(module not under src/) — a sequential generator of process-fresh column
identifiers; drawing the `n`-th identifier yields a name unique to `n`. -/
def standard_identifiers (n : Nat) : String :=
  "bfcol_" ++ toString n

/-- Modelled from the spec: `bigframes.core.guid.generate_guid("hidden_")`
(module not under src/) — a sequential generator of fresh hidden-column
names. -/
def hiddenGuid (n : Nat) : String :=
  "hidden_" ++ toString n

/-- `dict(zip(cols, id_generator))` where the shared generator has already
produced `start` identifiers: each column is paired with the next fresh
identifier in sequence. -/
def mkPairs : List String → Nat → List (String × String)
  | [], _ => []
  | c :: rest, s => (c, standard_identifiers s) :: mkPairs rest (s + 1)

/-- The hidden-column mapping comprehension: each hidden column is paired
with a fresh `hidden_` guid. -/
def mkHiddenPairs : List String → Nat → List (String × String)
  | [], _ => []
  | c :: rest, s => (c, hiddenGuid s) :: mkHiddenPairs rest (s + 1)

/-- Python dict lookup over a key-value pair list built left to right: on
duplicate keys the last binding wins.  A missing key raises `KeyError` in
the source; modelled by the empty name. -/
def dictGet (pairs : List (String × String)) (k : String) : String :=
  (((pairs.reverse).find? (fun p => p.1 = k)).map (fun p => p.2)).getD ""

/-- `compiled.UnorderedIR` as the join compiler consumes it: the ordered
list of visible column names (`column_ids`).  The underlying relational
table is built by the external ibis engine and is out of scope. -/
structure UnorderedIR where
  columns : List String
deriving DecidableEq, Repr

/-- `compiled.OrderedIR` as the join compiler consumes it: visible column
names, hidden ordering column names, and the row ordering, modelled as the
sequence of column names its ordering expressions reference (most
significant first). -/
structure OrderedIR where
  columns : List String
  hidden_ordering_columns : List String
  ordering : List String
deriving DecidableEq, Repr

/-- Modelled from the spec: `bigframes.core.ordering.join_orderings` (module
not under src/).  Per spec §4.3 step 6 the merged ordering is derived from
both sides' orderings remapped into the combined namespace, the dominating
side's ordering keys coming first (dominating tie-breaking). -/
def join_orderings (left_ord right_ord : List String)
    (l_mapping r_mapping : List (String × String))
    (left_order_dominates : Bool) : List String :=
  let l := left_ord.map (fun c => dictGet l_mapping c)
  let r := right_ord.map (fun c => dictGet r_mapping c)
  if left_order_dominates then l ++ r else r ++ l

/-- `join_by_column_unordered` (`single_column.py` lines 124-175): remap both
sides' visible columns through one shared fresh-identifier generator, join
the remapped tables (external), and emit all left columns then all right
columns through their remapped names.  `conditions` and `type` shape the
external relational join (via `value_to_join_key` predicates), not the
output column sequence. -/
def join_by_column_unordered (left right : UnorderedIR)
    (conditions : List (Nat × Nat)) (type : JoinType) : UnorderedIR :=
  let l_mapping := mkPairs left.columns 0
  let r_mapping := mkPairs right.columns left.columns.length
  { columns :=
      left.columns.map (fun c => dictGet l_mapping c)
        ++ right.columns.map (fun c => dictGet r_mapping c) }

/-- The merged left-side mapping `{**l_value_mapping, **l_hidden_mapping}`
of `join_by_column_ordered`. -/
def leftJoinMapping (left : OrderedIR) : List (String × String) :=
  mkPairs left.columns 0 ++ mkHiddenPairs left.hidden_ordering_columns 0

/-- The merged right-side mapping `{**r_value_mapping, **r_hidden_mapping}`
of `join_by_column_ordered`; the value generator continues after the left
columns, the guid generator after the left hidden columns. -/
def rightJoinMapping (left right : OrderedIR) : List (String × String) :=
  mkPairs right.columns left.columns.length
    ++ mkHiddenPairs right.hidden_ordering_columns left.hidden_ordering_columns.length

/-- `join_by_column_ordered` (`single_column.py` lines 31-121): remap both
sides' visible and hidden columns into fresh namespaces, join the remapped
tables (external), merge the orderings with
`left_order_dominates=(type != "right")`, and emit all left columns then all
right columns through their remapped names, followed by both sides' hidden
ordering columns. -/
def join_by_column_ordered (left right : OrderedIR)
    (conditions : List (Nat × Nat)) (type : JoinType) : OrderedIR :=
  let l_mapping := leftJoinMapping left
  let r_mapping := rightJoinMapping left right
  let l_hidden_mapping := mkHiddenPairs left.hidden_ordering_columns 0
  let r_hidden_mapping :=
    mkHiddenPairs right.hidden_ordering_columns left.hidden_ordering_columns.length
  { columns :=
      left.columns.map (fun c => dictGet l_mapping c)
        ++ right.columns.map (fun c => dictGet r_mapping c)
    hidden_ordering_columns :=
      left.hidden_ordering_columns.map (fun c => dictGet l_hidden_mapping c)
        ++ right.hidden_ordering_columns.map (fun c => dictGet r_hidden_mapping c)
    ordering :=
      join_orderings left.ordering right.ordering l_mapping r_mapping
        (type != JoinType.right) }

/-! ## Default ordering (`bigframes/core/compile/default_ordering.py`) -/

/-- `str_value.replace("\\", "\\\\")`: escape every backslash by doubling
it, written as a character-level map so that it evaluates by reduction. -/
def escapeBackslashes (s : String) : String :=
  ⟨s.data.flatMap (fun c => if c = '\\' then ['\\', '\\'] else [c])⟩

/-- `_convert_to_nonnull_string` (`default_ordering.py` lines 31-55) applied
to one row's cell of the given column type: numeric/boolean/binary/temporal
values cast to text, geospatial values use their well-known-text form,
strings pass through (their cast is the identity), everything else uses the
JSON serialization; then nulls become empty text, backslashes are escaped,
and a literal backslash delimiter is prefixed. -/
def convert_to_nonnull_string (ty : Dtype) (v : Option SqlLit) : String :=
  let result : Option String :=
    if ty.is_numeric || ty.is_boolean || ty.is_binary || ty.is_temporal then
      v.map SqlLit.castText
    else if ty.is_geospatial then v.map SqlLit.geoAsText
    else if ty.is_string then v.map SqlLit.castText
    else v.map SqlLit.toJsonText
  let escaped := escapeBackslashes (result.getD "")
  "\\" ++ escaped

/-- The row fingerprint: `str_values[0].concat(*str_values[1:])` — the
concatenation, in schema order, of every column's non-null string form. -/
def rowFingerprint : List (Dtype × Option SqlLit) → String
  | [] => ""
  | p :: rest => convert_to_nonnull_string p.1 p.2 ++ rowFingerprint rest

/-- One generated order key: an engine hash value or the engine-drawn random
tiebreaker. -/
inductive OrderKey where
  | hashKey (h : Int)
  | randKey (r : Int)
deriving DecidableEq, Repr

/-- `gen_default_ordering` (`default_ordering.py` lines 58-83) applied to one
row: `hashFn` models the engine's opaque `.hash()` and `randVal` the
engine-drawn `ibis.random()` value (fresh per execution, hence a parameter).
The generated guid column names carry no semantics and are omitted. -/
def gen_default_ordering (hashFn : String → Int) (randVal : Int)
    (row : List (Dtype × Option SqlLit)) (use_double_hash : Bool) : List OrderKey :=
  let full_row_str := rowFingerprint row
  let full_row_hash := OrderKey.hashKey (hashFn full_row_str)
  let full_row_hash_p2 := OrderKey.hashKey (hashFn (full_row_str ++ "_"))
  let random_value := OrderKey.randKey randVal
  if use_double_hash then [full_row_hash, full_row_hash_p2, random_value]
  else [full_row_hash, random_value]

/-! ## Concrete example trees used by the individual results -/

/-- A two-column local leaf, the child of the window tree below. -/
def c1Child : Node :=
  Node.readLocal [] [] 3
    ⟨[⟨⟨"a"⟩, Dtype.int64, "a"⟩, ⟨⟨"b"⟩, Dtype.int64, "b"⟩]⟩ none

/-- A window node over `c1Child` whose output column is named `w`. -/
def c1Tree : Node :=
  Node.windowOp c1Child ⟨⟨"a"⟩⟩ ⟨none⟩ ⟨[]⟩ ⟨"w"⟩ false false

/-- A used-column set that keeps only `a` (not the window output `w`). -/
def c1Used : Finset ColumnId := {⟨"a"⟩}

/-- A two-column local leaf, the child of the window node below. -/
def c3Child : Node :=
  Node.readLocal [] [] 2
    ⟨[⟨⟨"x"⟩, Dtype.int64, "x"⟩, ⟨⟨"y"⟩, Dtype.int64, "y"⟩]⟩ none

/-- A window node over `c3Child` reading `x` and emitting `wout`. -/
def c3Win : Node :=
  Node.windowOp c3Child ⟨⟨"x"⟩⟩ ⟨some Dtype.float64⟩ ⟨[]⟩ ⟨"wout"⟩ false false

/-- A concrete BigQuery data source. -/
def c2Source : BigqueryDataSource :=
  ⟨⟨"proj", "ds", "tbl", [⟨"c", Dtype.int64⟩], 10, true, none⟩, none, none, none⟩

/-- A concrete scan list over `c2Source`. -/
def c2Scan : ScanList := ⟨[⟨⟨"c"⟩, Dtype.int64, "c"⟩]⟩

/-- One original (pre-cache) subtree. -/
def c2Orig1 : Node := Node.readLocal [] [] 1 ⟨[]⟩ none

/-- Another original subtree, differing from `c2Orig1` only in row count. -/
def c2Orig2 : Node := Node.readLocal [] [] 2 ⟨[]⟩ none

/-- A single-column left leaf for the join-pruning example. -/
def c6l : Node := Node.readLocal [] [] 0 ⟨[⟨⟨"x"⟩, Dtype.int64, "x"⟩]⟩ none

/-- A single-column right leaf for the join-pruning example. -/
def c6r : Node := Node.readLocal [] [] 0 ⟨[⟨⟨"y"⟩, Dtype.int64, "y"⟩]⟩ none

/-- One equality condition joining `x` (left) to `y` (right). -/
def c6conds : List (DerefOp × DerefOp) := [(⟨⟨"x"⟩⟩, ⟨⟨"y"⟩⟩)]

/-- A used set containing only the left key `x` — not the right key `y`. -/
def c6used : Finset ColumnId := {⟨"x"⟩}

/-- The right leaf's scan list. -/
def c6sl : ScanList := ⟨[⟨⟨"y"⟩, Dtype.int64, "y"⟩]⟩

/-- The right key's scan item, which must survive pruning. -/
def c6it : ScanItem := ⟨⟨"y"⟩, Dtype.int64, "y"⟩

/-! ## Helper lemmas -/

set_option maxRecDepth 8000

/-- The keys of a value mapping are exactly the columns it was built from. -/
theorem mkPairs_keys (cols : List String) (s : Nat) :
    (mkPairs cols s).map Prod.fst = cols := by
  induction cols generalizing s with
  | nil => rfl
  | cons c rest ih => simp [mkPairs, ih]

/-- The keys of a hidden mapping are exactly the columns it was built from. -/
theorem mkHiddenPairs_keys (cols : List String) (s : Nat) :
    (mkHiddenPairs cols s).map Prod.fst = cols := by
  induction cols generalizing s with
  | nil => rfl
  | cons c rest ih => simp [mkHiddenPairs, ih]

/-- `find?` over a reversed list is `none` when the predicate holds nowhere. -/
theorem find?_reverse_eq_none {p : String × String → Bool} {l : List (String × String)}
    (h : ∀ x ∈ l, p x = false) : l.reverse.find? p = none := by
  apply List.find?_eq_none.mpr
  intro x hx
  simp [h x (List.mem_reverse.mp hx)]

/-- Dict lookup of the head key, when that key does not recur later. -/
theorem dictGet_head (c v : String) (rest : List (String × String))
    (h : c ∉ rest.map Prod.fst) : dictGet ((c, v) :: rest) c = v := by
  unfold dictGet
  rw [List.reverse_cons, List.find?_append]
  rw [find?_reverse_eq_none (fun x hx => ?_)]
  · simp [List.find?]
  · simp only [decide_eq_false_iff_not]
    intro hc
    exact h (List.mem_map.mpr ⟨x, hx, hc⟩)

/-- Dict lookup skips a head binding with a different key. -/
theorem dictGet_cons_ne (c v k : String) (rest : List (String × String))
    (h : k ≠ c) : dictGet ((c, v) :: rest) k = dictGet rest k := by
  unfold dictGet
  rw [List.reverse_cons, List.find?_append]
  cases hfind : rest.reverse.find? (fun p => p.1 = k) with
  | some p => simp [hfind]
  | none => simp [hfind, List.find?, Ne.symm h]

/-- Dict lookup in a merged dict hits the first part when the key is absent
from the second (later-wins merge). -/
theorem dictGet_append_left (l1 l2 : List (String × String)) (k : String)
    (h : k ∉ l2.map Prod.fst) : dictGet (l1 ++ l2) k = dictGet l1 k := by
  unfold dictGet
  rw [List.reverse_append, List.find?_append]
  rw [find?_reverse_eq_none (fun x hx => ?_)]
  · rfl
  · simp only [decide_eq_false_iff_not]
    intro hc
    exact h (List.mem_map.mpr ⟨x, hx, hc⟩)

/-- Remapping duplicate-free columns through their own fresh-identifier dict
yields exactly the fresh identifiers, in order. -/
theorem mkPairs_map_dictGet :
    ∀ (cols : List String) (s : Nat), cols.Nodup →
      cols.map (fun c => dictGet (mkPairs cols s) c)
        = (List.range cols.length).map (fun i => standard_identifiers (s + i))
  | [], _, _ => rfl
  | c :: rest, s, h => by
    obtain ⟨hc, hrest⟩ := List.nodup_cons.mp h
    simp only [List.map_cons, mkPairs]
    have hhead : dictGet ((c, standard_identifiers s) :: mkPairs rest (s + 1)) c
        = standard_identifiers s := by
      apply dictGet_head
      rw [mkPairs_keys]
      exact hc
    have htail :
        rest.map (fun k => dictGet ((c, standard_identifiers s) :: mkPairs rest (s + 1)) k)
          = rest.map (fun k => dictGet (mkPairs rest (s + 1)) k) := by
      apply List.map_congr_left
      intro k hk
      exact dictGet_cons_ne _ _ _ _ (fun he => hc (he ▸ hk))
    rw [hhead, htail, mkPairs_map_dictGet rest (s + 1) hrest]
    rw [List.length_cons, List.range_succ_eq_map, List.map_cons, List.map_map]
    refine congrArg₂ List.cons (congrArg standard_identifiers (by omega)) ?_
    exact List.map_congr_left (fun i _ => congrArg standard_identifiers (by omega))

/-- The dedup of a nonempty constant list is a singleton. -/
theorem dedup_replicate_succ {α : Type} [DecidableEq α] (a : α) :
    ∀ n : Nat, (List.replicate (n + 1) a).dedup = [a]
  | 0 => by simp
  | n + 1 => by
    rw [List.replicate_succ, List.dedup_cons_of_mem (by simp)]
    exact dedup_replicate_succ a n

/-- A nonempty list dedups to length one exactly when all its elements are
equal — the list-level content of Python's `len(set(xs)) == 1`. -/
theorem length_dedup_eq_one_iff {α : Type} [DecidableEq α] {xs : List α} (hne : xs ≠ []) :
    xs.dedup.length = 1 ↔ ∀ a ∈ xs, ∀ b ∈ xs, a = b := by
  constructor
  · intro h a ha b hb
    obtain ⟨c, hc⟩ := List.length_eq_one.mp h
    have ha2 := List.mem_dedup.mpr ha
    have hb2 := List.mem_dedup.mpr hb
    rw [hc] at ha2 hb2
    simp only [List.mem_singleton] at ha2 hb2
    rw [ha2, hb2]
  · intro h
    obtain ⟨c, cs, rfl⟩ := List.exists_cons_of_ne_nil hne
    have hrep : c :: cs = List.replicate (cs.length + 1) c := by
      rw [List.eq_replicate_iff]
      exact ⟨by simp, fun b hb => h b hb c (by simp)⟩
    rw [hrep, dedup_replicate_succ]
    rfl

/-! ## Claim theorems -/

/-- C1: the claim states that pruning is idempotent — for every tree `T` and
column set `U`, `prune(prune(T, U), U) == prune(T, U)`.  The code violates
this: on a window tree whose output is unused, `WindowOpNode.prune` returns
the raw (unpruned) child, so pruning a second time still shrinks the tree.
This theorem evaluates the code at the failing input. -/
theorem prune_not_idempotent_on_window_tree :
    Node.prune c1Tree c1Used = c1Child
      ∧ Node.prune (Node.prune c1Tree c1Used) c1Used ≠ Node.prune c1Tree c1Used := by
  exact ⟨by decide, by decide⟩

/-- C3: the claim states that when a `WindowOpNode`'s output is unused,
`prune` returns the child *pruned against U*.  The code (`nodes.py` line
916) returns `self.child` unpruned; this theorem evaluates the failing
input: the returned child still carries the unused column `y`, whereas the
pruned child would not.  The second branch of the claim (output used:
recurse with `U - output + input`) does hold, as the third conjunct shows. -/
theorem windowOp_prune_returns_unpruned_child :
    Node.prune c3Win {⟨"x"⟩} = c3Child
      ∧ Node.prune c3Child ({⟨"x"⟩} : Finset ColumnId) ≠ c3Child
      ∧ Node.prune c3Win {⟨"wout"⟩}
          = Node.windowOp (Node.readLocal [] [] 2 ⟨[⟨⟨"x"⟩, Dtype.int64, "x"⟩]⟩ none)
              ⟨⟨"x"⟩⟩ ⟨some Dtype.float64⟩ ⟨[]⟩ ⟨"wout"⟩ false false := by
  exact ⟨by decide, by decide, by decide⟩

/-- C2 (counterexample): two `CachedTableNode`s agreeing on source, scan
list and session but with different `original_node`s are NOT equal and do
not have equal hashes — `_as_tuple` iterates over all dataclass fields, so
equality and the cached hash include the back-reference.  Only traversal
(`child_nodes`) excludes it. -/
theorem cachedTable_original_node_affects_eq_and_hash :
    Node.cachedTable c2Source c2Scan 0 c2Orig1 ≠ Node.cachedTable c2Source c2Scan 0 c2Orig2
      ∧ Node.cached_hash (Node.cachedTable c2Source c2Scan 0 c2Orig1)
          ≠ Node.cached_hash (Node.cachedTable c2Source c2Scan 0 c2Orig2)
      ∧ Node.child_nodes (Node.cachedTable c2Source c2Scan 0 c2Orig1) = [] := by
  exact ⟨by decide, by decide, rfl⟩

/-- C2 (amended): for every `CachedTableNode`, `original_node` never appears
in `child_nodes`, but it does participate in structural equality: two such
nodes agreeing on source, scan list and session are equal precisely when
their `original_node`s are equal. -/
theorem cachedTable_eq_iff_original_node_eq (s : BigqueryDataSource) (sl : ScanList)
    (ses : Session) (o1 o2 : Node) :
    Node.child_nodes (Node.cachedTable s sl ses o1) = []
      ∧ ((Node.cachedTable s sl ses o1 = Node.cachedTable s sl ses o2) ↔ o1 = o2) := by
  exact ⟨rfl, by simp⟩

/-- C4: `value_to_join_key` replaces every null by the fixed sentinel token
(after casting non-textual values to text), so two null values produce the
same non-null key and match under the join; non-textual inputs always come
out as text. -/
theorem value_to_join_key_null_safe (v1 v2 : IbisValue)
    (h1 : v1.val = none) (h2 : v2.val = none) :
    (value_to_join_key v1).val = some (SqlLit.strL "$NULL_SENTINEL$")
      ∧ (value_to_join_key v2).val = (value_to_join_key v1).val
      ∧ (∀ v : IbisValue, (value_to_join_key v).val ≠ none)
      ∧ (∀ v : IbisValue, v.ty.is_string = false →
          (value_to_join_key v).ty = Dtype.stringDt) := by
  have key : ∀ w : IbisValue, w.val = none →
      (value_to_join_key w).val = some (SqlLit.strL "$NULL_SENTINEL$") := by
    intro w hw
    unfold value_to_join_key IbisValue.fillna IbisValue.castToText
    split_ifs <;> simp [hw]
  refine ⟨key v1 h1, by rw [key v1 h1, key v2 h2], ?_, ?_⟩
  · intro v
    unfold value_to_join_key IbisValue.fillna
    split_ifs <;> simp
  · intro v hv
    unfold value_to_join_key IbisValue.fillna IbisValue.castToText
    rw [if_pos]
    simp [hv]

/-- C4 witness: two concrete null values of non-textual types produce the
sentinel key, equal on both sides and never null. -/
theorem value_to_join_key_null_safe_witness :
    (value_to_join_key ⟨Dtype.int64, none⟩).val = some (SqlLit.strL "$NULL_SENTINEL$")
      ∧ (value_to_join_key ⟨Dtype.boolDt, none⟩).val = (value_to_join_key ⟨Dtype.int64, none⟩).val
      ∧ (∀ v : IbisValue, (value_to_join_key v).val ≠ none)
      ∧ (∀ v : IbisValue, v.ty.is_string = false →
          (value_to_join_key v).ty = Dtype.stringDt) :=
  value_to_join_key_null_safe ⟨Dtype.int64, none⟩ ⟨Dtype.boolDt, none⟩ rfl rfl

/-- C5: in both join-compilation variants the output column sequence is all
left columns in their original order followed by all right columns in their
original order, each referenced through its remapped fresh identifier — the
left side consumes identifiers `0..nl-1` and the right side continues with
`nl..nl+nr-1`, so key columns are neither deduplicated nor coalesced. -/
theorem join_output_columns_left_then_right
    (uLeft uRight : UnorderedIR) (oLeft oRight : OrderedIR)
    (conds : List (Nat × Nat)) (ty : JoinType)
    (hu1 : uLeft.columns.Nodup) (hu2 : uRight.columns.Nodup)
    (ho1 : (oLeft.columns ++ oLeft.hidden_ordering_columns).Nodup)
    (ho2 : (oRight.columns ++ oRight.hidden_ordering_columns).Nodup) :
    (join_by_column_unordered uLeft uRight conds ty).columns
        = (List.range uLeft.columns.length).map (fun i => standard_identifiers i)
          ++ (List.range uRight.columns.length).map
              (fun i => standard_identifiers (uLeft.columns.length + i))
      ∧ (join_by_column_ordered oLeft oRight conds ty).columns
          = (List.range oLeft.columns.length).map (fun i => standard_identifiers i)
            ++ (List.range oRight.columns.length).map
                (fun i => standard_identifiers (oLeft.columns.length + i)) := by
  constructor
  · show uLeft.columns.map (fun c => dictGet (mkPairs uLeft.columns 0) c)
        ++ uRight.columns.map (fun c => dictGet (mkPairs uRight.columns uLeft.columns.length) c)
      = _
    rw [mkPairs_map_dictGet _ _ hu1, mkPairs_map_dictGet _ _ hu2]
    simp
  · obtain ⟨hl1, hl2, hldisj⟩ := List.nodup_append.mp ho1
    obtain ⟨hr1, hr2, hrdisj⟩ := List.nodup_append.mp ho2
    show oLeft.columns.map (fun c => dictGet (leftJoinMapping oLeft) c)
        ++ oRight.columns.map (fun c => dictGet (rightJoinMapping oLeft oRight) c)
      = _
    have e1 : oLeft.columns.map (fun c => dictGet (leftJoinMapping oLeft) c)
        = oLeft.columns.map (fun c => dictGet (mkPairs oLeft.columns 0) c) := by
      apply List.map_congr_left
      intro c hc
      apply dictGet_append_left
      rw [mkHiddenPairs_keys]
      exact hldisj hc
    have e2 : oRight.columns.map (fun c => dictGet (rightJoinMapping oLeft oRight) c)
        = oRight.columns.map
            (fun c => dictGet (mkPairs oRight.columns oLeft.columns.length) c) := by
      apply List.map_congr_left
      intro c hc
      apply dictGet_append_left
      rw [mkHiddenPairs_keys]
      exact hrdisj hc
    rw [e1, e2, mkPairs_map_dictGet _ _ hl1, mkPairs_map_dictGet _ _ hr1]
    simp

/-- C5 witness: a concrete unordered join of a two-column and a one-column
input, and a concrete ordered join, both emit left-then-right remapped
columns. -/
theorem join_output_columns_left_then_right_witness :
    (join_by_column_unordered ⟨["a", "b"]⟩ ⟨["c"]⟩ [(0, 0)] JoinType.inner).columns
        = (List.range 2).map (fun i => standard_identifiers i)
          ++ (List.range 1).map (fun i => standard_identifiers (2 + i))
      ∧ (join_by_column_ordered ⟨["a"], ["h1"], ["a", "h1"]⟩ ⟨["b"], ["h2"], ["b"]⟩
            [(0, 0)] JoinType.inner).columns
          = (List.range 1).map (fun i => standard_identifiers i)
            ++ (List.range 1).map (fun i => standard_identifiers (1 + i)) :=
  join_output_columns_left_then_right ⟨["a", "b"]⟩ ⟨["c"]⟩ ⟨["a"], ["h1"], ["a", "h1"]⟩
    ⟨["b"], ["h2"], ["b"]⟩ [(0, 0)] JoinType.inner
    (by decide) (by decide) (by decide) (by decide)

/-- C6: `JoinNode.prune` recurses into both children with `used` enlarged by
the column ids of all join-key references from both sides; consequently a
leaf child's scan item whose id is a join key survives pruning even when the
caller did not request it. -/
theorem joinNode_prune_retains_join_keys
    (l r : Node) (conds : List (DerefOp × DerefOp)) (ty : JoinType) (used : Finset ColumnId)
    (fb : List UInt8) (ds : ArraySchema) (n : Nat) (sl : ScanList) (ses : Option Session)
    (it : ScanItem) (hit : it ∈ sl.items) (hkey : it.id ∈ joinConditionIds conds) :
    Node.prune (Node.join l r conds ty) used
        = Node.join (Node.prune l (used ∪ joinConditionIds conds))
            (Node.prune r (used ∪ joinConditionIds conds)) conds ty
      ∧ Node.prune (Node.join (Node.readLocal fb ds n sl ses) r conds ty) used
          = Node.join
              (Node.readLocal fb ds n
                ⟨sl.items.filter (fun x => x.id ∈ used ∪ joinConditionIds conds)⟩ ses)
              (Node.prune r (used ∪ joinConditionIds conds)) conds ty
      ∧ it ∈ sl.items.filter (fun x => x.id ∈ used ∪ joinConditionIds conds) := by
  refine ⟨rfl, rfl, ?_⟩
  rw [List.mem_filter]
  exact ⟨hit, by simp [hkey]⟩

/-- C6 witness: joining two one-column leaves on `x = y` and pruning with
`used = {x}` retains the right key `y` anyway. -/
theorem joinNode_prune_retains_join_keys_witness :
    Node.prune (Node.join c6l c6r c6conds JoinType.left) c6used
        = Node.join (Node.prune c6l (c6used ∪ joinConditionIds c6conds))
            (Node.prune c6r (c6used ∪ joinConditionIds c6conds)) c6conds JoinType.left
      ∧ Node.prune (Node.join (Node.readLocal [] [] 0 c6sl none) c6r c6conds JoinType.left)
            c6used
          = Node.join
              (Node.readLocal [] [] 0
                ⟨c6sl.items.filter (fun x => x.id ∈ c6used ∪ joinConditionIds c6conds)⟩ none)
              (Node.prune c6r (c6used ∪ joinConditionIds c6conds)) c6conds JoinType.left
      ∧ c6it ∈ c6sl.items.filter (fun x => x.id ∈ c6used ∪ joinConditionIds c6conds) :=
  joinNode_prune_retains_join_keys c6l c6r c6conds JoinType.left c6used
    [] [] 0 c6sl none c6it (by decide) (by decide)

/-- C7: in the ordered join-compilation path the merged ordering places the
left side's remapped ordering keys first (left dominates tie-breaking) for
every join kind except `right`, for which the right side's keys come
first. -/
theorem ordered_join_ordering_dominance (left right : OrderedIR)
    (conds : List (Nat × Nat)) (ty : JoinType) :
    (join_by_column_ordered left right conds ty).ordering
      = if ty = JoinType.right then
          right.ordering.map (fun c => dictGet (rightJoinMapping left right) c)
            ++ left.ordering.map (fun c => dictGet (leftJoinMapping left) c)
        else
          left.ordering.map (fun c => dictGet (leftJoinMapping left) c)
            ++ right.ordering.map (fun c => dictGet (rightJoinMapping left right) c) := by
  cases ty <;> simp [join_by_column_ordered, join_orderings]

/-- C8: constructing a `ConcatNode` succeeds exactly when the children tuple
is nonempty and all children share an identical positional dtype sequence;
zero children or any two differing children are rejected. -/
theorem concatNode_make_ok_iff (children : NodeList) :
    concatNodeMake children = Except.ok (Node.concat children) ↔
      children.toList ≠ [] ∧
        ∀ c1 ∈ children.toList, ∀ c2 ∈ children.toList,
          Node.schemaDtypes c1 = Node.schemaDtypes c2 := by
  unfold concatNodeMake
  split_ifs with h1 h2
  · have hz : children.toList = [] := List.length_eq_zero.mp h1
    simp [hz]
  · have hne : children.toList ≠ [] := fun hh => h1 (by rw [hh]; rfl)
    have hmapne : children.toList.map Node.schemaDtypes ≠ [] := by
      simp [hne]
    constructor
    · intro _
      refine ⟨hne, fun c1 h1m c2 h2m => ?_⟩
      exact (length_dedup_eq_one_iff hmapne).mp h2 _
        (List.mem_map_of_mem _ h1m) _ (List.mem_map_of_mem _ h2m)
    · intro _
      rfl
  · have hne : children.toList ≠ [] := fun hh => h1 (by rw [hh]; rfl)
    have hmapne : children.toList.map Node.schemaDtypes ≠ [] := by
      simp [hne]
    constructor
    · intro hcontra
      cases hcontra
    · rintro ⟨-, hall⟩
      exfalso
      apply h2
      apply (length_dedup_eq_one_iff hmapne).mpr
      intro a ha b hb
      obtain ⟨c1, hc1, rfl⟩ := List.mem_map.mp ha
      obtain ⟨c2, hc2, rfl⟩ := List.mem_map.mp hb
      exact hall c1 hc1 c2 hc2

/-- C9: `gen_default_ordering` emits the fingerprint hash, the hash of the
fingerprint with the fixed `_` suffix, and the random tiebreaker when
`use_double_hash` is true, omitting the second hash when it is false; the
fingerprint concatenates, in schema order, each column's non-null string
form — a null column contributes exactly the backslash delimiter (empty
text). -/
theorem gen_default_ordering_keys (hashFn : String → Int) (randVal : Int)
    (row : List (Dtype × Option SqlLit)) :
    gen_default_ordering hashFn randVal row true
        = [OrderKey.hashKey (hashFn (rowFingerprint row)),
           OrderKey.hashKey (hashFn (rowFingerprint row ++ "_")),
           OrderKey.randKey randVal]
      ∧ gen_default_ordering hashFn randVal row false
          = [OrderKey.hashKey (hashFn (rowFingerprint row)), OrderKey.randKey randVal]
      ∧ (∀ (ty : Dtype) (rest : List (Dtype × Option SqlLit)),
          rowFingerprint ((ty, none) :: rest) = "\\" ++ rowFingerprint rest)
      ∧ (∀ (ty : Dtype) (v : Option SqlLit) (rest : List (Dtype × Option SqlLit)),
          rowFingerprint ((ty, v) :: rest)
            = convert_to_nonnull_string ty v ++ rowFingerprint rest) := by
  refine ⟨rfl, rfl, ?_, fun ty v rest => rfl⟩
  intro ty rest
  have h : convert_to_nonnull_string ty none = "\\" := by
    cases ty <;> rfl
  show convert_to_nonnull_string ty none ++ rowFingerprint rest = _
  rw [h]

/-- C10: `ReadTableNode.row_count` reports the source table's declared row
count exactly when the source carries no SQL predicate and the table is a
physical (materialized) table; in every other case it is unknown. -/
theorem readTable_row_count_iff (s : BigqueryDataSource) (sl : ScanList)
    (ses : Session) (k : Nat) :
    (Node.readTable s sl ses).row_count = some k ↔
      s.sql_predicate = none ∧ s.table.is_physical_table = true
        ∧ k = s.table.n_rows := by
  show (if s.sql_predicate = none ∧ s.table.is_physical_table then some s.table.n_rows
      else none) = some k ↔ _
  split_ifs with h
  · obtain ⟨hp, hph⟩ := h
    constructor
    · intro he
      exact ⟨hp, hph, (Option.some.injEq _ _ |>.mp he).symm⟩
    · rintro ⟨-, -, rfl⟩
      rfl
  · constructor
    · intro hcontra
      cases hcontra
    · rintro ⟨hp, hph, -⟩
      exact absurd ⟨hp, hph⟩ h

end BigFrames
